import Mathlib

/-!
# Verification of the EpiGEN genotype-corpus merging engine

A shallow embedding of `merge_genotype_corpora.py` and the corpus merging and
statistics core it orchestrates (compatibility validation, axis-wise merge,
MAF computation, cumulative MAF distribution, serialization, file naming,
population-label derivation, and argument checks).

Genotype matrices are lists of rows (one row per SNP/marker), each row a list
of allele dosages (naturals, domain {0,1,2}).  MAF values are modelled as
exact rationals.
-/

namespace EpiGen

/-- Marker metadata: RS identifier, chromosome number, position on chromosome,
major allele, minor allele (one record per genotype-matrix row). -/
structure MarkerInfo where
  rsid : String
  chromosome : Nat
  position : Nat
  majorAllele : String
  minorAllele : String
deriving DecidableEq, Repr

/-- A corpus: genotype matrix (indexed marker-major) plus its ordered marker list. -/
structure Corpus where
  genotype : List (List Nat)
  snps : List MarkerInfo
deriving DecidableEq, Repr

/-- The merge axis: append SNPs (axis 0) or append individuals (axis 1). -/
inductive Axis where
  | SNPS
  | INDS
deriving DecidableEq, Repr

/-- Failure raised by the compatibility validator: dimensional or marker-identity
mismatch, or fewer than two corpora.  The index identifies the offending corpus. -/
inductive IncompatibleCorpusError where
  | tooFewCorpora (n : Nat)
  | indCountMismatch (idx : Nat)
  | markerMismatch (idx : Nat)
deriving DecidableEq, Repr

/-- Number of individuals of a corpus: the length of its first genotype row. -/
def numInds (c : Corpus) : Nat := (c.genotype.headD []).length

/-- Modelled from the spec: CompatibilityValidator.validate (the validator lives in
`utils/genotype_corpus_merger.py`, which is not part of the provided sources).
Requires at least two corpora; for axis SNPS all corpora must share the
individual count of the first corpus; for axis INDS all corpora must have marker
lists identical to the first corpus's.  A violation yields a single descriptive
`IncompatibleCorpusError` naming the offending corpus index. -/
def validate (corpora : List Corpus) (axis : Axis) : Except IncompatibleCorpusError Unit :=
  match corpora with
  | [] => .error (.tooFewCorpora 0)
  | [_] => .error (.tooFewCorpora 1)
  | c₀ :: rest =>
    match axis with
    | .SNPS =>
      if rest.all (fun c => numInds c == numInds c₀) then .ok ()
      else .error (.indCountMismatch (rest.findIdx (fun c => numInds c != numInds c₀) + 1))
    | .INDS =>
      if rest.all (fun c => c.snps == c₀.snps) then .ok ()
      else .error (.markerMismatch (rest.findIdx (fun c => c.snps != c₀.snps) + 1))

/-- Column-wise concatenation of two genotype matrices (same row count). -/
def hcat (A B : List (List Nat)) : List (List Nat) := List.zipWith (· ++ ·) A B

/-- Modelled from the spec: CorpusMerger / GenotypeCorpusMerger.merge_corpora
(the merger lives in `utils/genotype_corpus_merger.py`, not in the provided
sources).  After validation, axis SNPS row-concatenates genotype matrices and
marker lists in input-list order; axis INDS column-concatenates the matrices
and keeps the first corpus's marker list unchanged. -/
def merge_corpora (corpora : List Corpus) (axis : Axis) : Except IncompatibleCorpusError Corpus :=
  match validate corpora axis with
  | .error e => .error e
  | .ok _ =>
    match corpora with
    | [] => .error (.tooFewCorpora 0)
    | c₀ :: rest =>
      match axis with
      | .SNPS =>
        .ok ⟨((c₀ :: rest).map Corpus.genotype).flatten, ((c₀ :: rest).map Corpus.snps).flatten⟩
      | .INDS =>
        .ok ⟨rest.foldl (fun acc c => hcat acc c.genotype) c₀.genotype, c₀.snps⟩

/-- MAF of one marker row, modelled from the spec: raw proportion
f = (sum of dosages) / (2 × individual count), folded into [0, 1/2] by
min f (1 - f). -/
def rowMaf (row : List Nat) : ℚ :=
  min ((row.sum : ℚ) / (2 * (row.length : ℚ)))
    (1 - (row.sum : ℚ) / (2 * (row.length : ℚ)))

/-- Modelled from the spec: MafAnalyzer.compute_mafs — one MAF value per marker row. -/
def compute_mafs (matrix : List (List Nat)) : List ℚ := matrix.map rowMaf

/-- Sort the MAF values ascending (insertion sort: a deterministic comparison sort). -/
def sortMafs (mafs : List ℚ) : List ℚ := List.insertionSort (· ≤ ·) mafs

/-- Deduplicate consecutive equal values of a list. -/
def dedupConsec : List ℚ → List ℚ
  | [] => []
  | [a] => [a]
  | a :: b :: l => if a = b then dedupConsec (b :: l) else a :: dedupConsec (b :: l)

/-- The number of markers whose MAF does not exceed the threshold t. -/
def countLE (mafs : List ℚ) (t : ℚ) : Nat := (mafs.filter (fun m => m ≤ t)).length

/-- Modelled from the spec: MafAnalyzer.build_cumulative — sort MAF values
ascending, deduplicate consecutive equal thresholds, and record for each
distinct threshold the count of markers with MAF at most that threshold. -/
def build_cumulative (mafs : List ℚ) : List (ℚ × Nat) :=
  (dedupConsec (sortMafs mafs)).map (fun t => (t, countLE mafs t))

/-- Modelled from the spec: PopulationNamer.derive_label — exactly one distinct
population code gives that code; otherwise the label is MIX. -/
def derive_label (pops : List String) : String :=
  match pops with
  | [] => "MIX"
  | p :: rest => if rest.all (fun q => q == p) then p else "MIX"

/-- JSON values as serialized by the corpus store (numbers, strings, arrays;
numbers are exact rationals standing for the JSON numerals). -/
inductive Json where
  | num (q : ℚ)
  | str (s : String)
  | arr (xs : List Json)

/-- Traverse a list with a fallible decoder; fails if any element fails. -/
def mapOption {α β : Type} (g : α → Option β) : List α → Option (List β)
  | [] => some []
  | x :: xs =>
    match g x, mapOption g xs with
    | some y, some ys => some (y :: ys)
    | _, _ => none

/-- Encode a natural number as a JSON numeral. -/
def encNat (n : Nat) : Json := .num (n : ℚ)

/-- Decode a JSON numeral back to a natural number; fails on anything that is
not a non-negative integer numeral. -/
def decNat : Json → Option Nat
  | .num q => if q.den = 1 ∧ 0 ≤ q.num then some q.num.toNat else none
  | _ => none

/-- Decode a JSON numeral back to a rational. -/
def decQ : Json → Option ℚ
  | .num q => some q
  | _ => none

/-- Decode a JSON string. -/
def decStr : Json → Option String
  | .str s => some s
  | _ => none

/-- Encode a genotype row. -/
def encRow (row : List Nat) : Json := .arr (row.map encNat)

/-- Decode a genotype row. -/
def decRow : Json → Option (List Nat)
  | .arr xs => mapOption decNat xs
  | _ => none

/-- Encode the genotype matrix artifact. -/
def encMatrix (m : List (List Nat)) : Json := .arr (m.map encRow)

/-- Decode the genotype matrix artifact. -/
def decMatrix : Json → Option (List (List Nat))
  | .arr xs => mapOption decRow xs
  | _ => none

/-- Encode one marker record as the array [rsid, chromosome, position, major, minor]. -/
def encMarker (m : MarkerInfo) : Json :=
  .arr [.str m.rsid, encNat m.chromosome, encNat m.position, .str m.majorAllele, .str m.minorAllele]

/-- Decode one marker record. -/
def decMarker : Json → Option MarkerInfo
  | .arr [.str r, c, p, .str ma, .str mi] =>
    match decNat c, decNat p with
    | some cn, some pn => some ⟨r, cn, pn, ma, mi⟩
    | _, _ => none
  | _ => none

/-- Encode the SNP metadata artifact. -/
def encSnps (snps : List MarkerInfo) : Json := .arr (snps.map encMarker)

/-- Decode the SNP metadata artifact. -/
def decSnps : Json → Option (List MarkerInfo)
  | .arr xs => mapOption decMarker xs
  | _ => none

/-- Encode the MAF list artifact. -/
def encMafs (mafs : List ℚ) : Json := .arr (mafs.map Json.num)

/-- Decode the MAF list artifact. -/
def decMafs : Json → Option (List ℚ)
  | .arr xs => mapOption decQ xs
  | _ => none

/-- Encode one cumulative-distribution entry as the pair [maf, count]. -/
def encCumEntry (e : ℚ × Nat) : Json := .arr [.num e.1, encNat e.2]

/-- Decode one cumulative-distribution entry. -/
def decCumEntry : Json → Option (ℚ × Nat)
  | .arr [.num q, c] =>
    match decNat c with
    | some n => some (q, n)
    | none => none
  | _ => none

/-- Encode the cumulative MAF distribution artifact. -/
def encCum (cum : List (ℚ × Nat)) : Json := .arr (cum.map encCumEntry)

/-- Decode the cumulative MAF distribution artifact. -/
def decCum : Json → Option (List (ℚ × Nat))
  | .arr xs => mapOption decCumEntry xs
  | _ => none

/-- Suffix of the generated files: json.bz2 when compression is requested,
json otherwise (merge_genotype_corpora.py, lines 151-153). -/
def suffixOf (compress : Bool) : String := if compress then "json.bz2" else "json"

/-- Modelled from the spec: the five output paths of the corpus store
(directory ./corpora/, prefix ID_POP, data suffix json or json.bz2,
plot suffix pdf). -/
def artifactPaths (id : Nat) (pop : String) (compress : Bool) : List String :=
  [ "./corpora/" ++ toString id ++ "_" ++ pop ++ "_genotype." ++ suffixOf compress
  , "./corpora/" ++ toString id ++ "_" ++ pop ++ "_snps." ++ suffixOf compress
  , "./corpora/" ++ toString id ++ "_" ++ pop ++ "_mafs." ++ suffixOf compress
  , "./corpora/" ++ toString id ++ "_" ++ pop ++ "_cum_mafs." ++ suffixOf compress
  , "./corpora/" ++ toString id ++ "_" ++ pop ++ "_cum_mafs.pdf" ]

/-- Modelled from the spec: CorpusStore.save / GenotypeCorpusMerger.dump_corpus —
the four data artifacts written for a merged corpus, in on-disk order
(genotype matrix, marker list, MAF list, cumulative distribution). -/
def dump_corpus (c : Corpus) (mafs : List ℚ) (cum : List (ℚ × Nat)) : List Json :=
  [encMatrix c.genotype, encSnps c.snps, encMafs mafs, encCum cum]

/-- Modelled from the spec: CorpusStore.load — read the four artifacts back;
fails (None) if any artifact is absent or malformed. -/
def loadCorpus (files : List Json) : Option (Corpus × List ℚ × List (ℚ × Nat)) :=
  match files with
  | [g, s, m, c] =>
    match decMatrix g, decSnps s, decMafs m, decCum c with
    | some gm, some sn, some mf, some cm => some (⟨gm, sn⟩, mf, cm)
    | _, _, _, _ => none
  | _ => none

/-- Modelled from the spec: the orchestrated pipeline of run_script —
merge (with validation), compute MAFs, build the cumulative distribution,
then dump the artifacts.  A validation failure aborts before anything is
written: the error branch carries no output files. -/
def runPipeline (corpora : List Corpus) (axis : Axis) (pops : List String)
    (id : Nat) (compress : Bool) :
    Except IncompatibleCorpusError (List String × List Json) :=
  match merge_corpora corpora axis with
  | .error e => .error e
  | .ok merged =>
    let mafs := compute_mafs merged.genotype
    .ok (artifactPaths id (derive_label pops) compress,
         dump_corpus merged mafs (build_cumulative mafs))

/-- The summary printed by run_script (lines 157-162), transcribed literally:
the number of SNPs and the five generated file paths. -/
def summaryLines (id : Nat) (pop : String) (compress : Bool) (numSnps : Nat) : List String :=
  [ "Number of SNPs:\t\t\t" ++ toString numSnps
  , "Genotype data:\t\t\t./corpora/" ++ toString id ++ "_" ++ pop ++ "_genotype." ++ suffixOf compress
  , "SNPs:\t\t\t\t./corpora/" ++ toString id ++ "_" ++ pop ++ "_snps." ++ suffixOf compress
  , "MAFs:\t\t\t\t./corpora/" ++ toString id ++ "_" ++ pop ++ "_mafs." ++ suffixOf compress
  , "Cumulative MAF distr.:\t\t./corpora/" ++ toString id ++ "_" ++ pop ++ "_cum_mafs." ++ suffixOf compress
  , "Plot of cumulative MAF distr.:\t./corpora/" ++ toString id ++ "_" ++ pop ++ "_cum_mafs.pdf" ]

/-- Modelled from the spec: utils.argparse_checks.check_length, attached to the
--corpus-ids and --pops options (merge_genotype_corpora.py, lines 134, 136):
accepts any value list of length at least 2, and checks nothing else. -/
def check_length (optionName : String) (values : List Int) : Except String (List Int) :=
  if values.length < 2 then
    .error ("Invalid argument passed to " ++ optionName ++ ": at least 2 values required.")
  else .ok values

/-- Modelled from the spec: utils.argparse_checks.check_non_negative, attached
to the --corpus-id option only (merge_genotype_corpora.py, line 135). -/
def check_non_negative (optionName : String) (value : Int) : Except String Int :=
  if value < 0 then
    .error ("Invalid argument passed to " ++ optionName ++ ": non-negative integer required.")
  else .ok value

/-- Argument validation of run_script: --corpus-ids passes only check_length,
--corpus-id passes check_non_negative.  Success hands the (unchanged) source
ids on to corpus loading. -/
def parseMergeArgs (corpusIds : List Int) (corpusId : Int) :
    Except String (List Int × Int) :=
  match check_length "--corpus-ids" corpusIds with
  | .error e => .error e
  | .ok ids =>
    match check_non_negative "--corpus-id" corpusId with
    | .error e => .error e
    | .ok cid => .ok (ids, cid)

/-! ## Helper lemmas -/

theorem numInds_eq (c : Corpus) (N : Nat) (h : c.genotype ≠ [])
    (hr : ∀ r ∈ c.genotype, r.length = N) : numInds c = N := by
  cases hg : c.genotype with
  | nil => exact absurd hg h
  | cons r t =>
    simp only [numInds, hg, List.headD_cons]
    exact hr r (by rw [hg]; exact List.mem_cons_self r t)

theorem dedupConsec_cons_head (l : List ℚ) (b : ℚ) :
    ∃ t, dedupConsec (b :: l) = b :: t := by
  induction l generalizing b with
  | nil => exact ⟨[], rfl⟩
  | cons c l ih =>
    by_cases hbc : b = c
    · obtain ⟨t, ht⟩ := ih c
      exact ⟨t, by simp [dedupConsec, hbc, ht]⟩
    · exact ⟨dedupConsec (c :: l), by simp [dedupConsec, hbc]⟩

theorem dedupConsec_chain (l : List ℚ) (h : List.Chain' (· ≤ ·) l) :
    List.Chain' (· < ·) (dedupConsec l) := by
  induction l with
  | nil => simp [dedupConsec]
  | cons a l ih =>
    cases l with
    | nil => simp [dedupConsec]
    | cons b l₂ =>
      rw [List.chain'_cons] at h
      by_cases hab : a = b
      · simpa [dedupConsec, hab] using ih h.2
      · obtain ⟨t, ht⟩ := dedupConsec_cons_head l₂ b
        have hchain : List.Chain' (· < ·) (dedupConsec (b :: l₂)) := ih h.2
        simp only [dedupConsec, hab, if_false]
        rw [ht] at hchain ⊢
        exact List.chain'_cons.mpr ⟨lt_of_le_of_ne h.1 hab, hchain⟩

theorem dedupConsec_getLast (l : List ℚ) :
    (dedupConsec l).getLast? = l.getLast? := by
  induction l with
  | nil => rfl
  | cons a l ih =>
    cases l with
    | nil => rfl
    | cons b l₂ =>
      by_cases hab : a = b
      · rw [show dedupConsec (a :: b :: l₂) = dedupConsec (b :: l₂) by
          simp [dedupConsec, hab], ih, List.getLast?_cons_cons]
      · obtain ⟨t, ht⟩ := dedupConsec_cons_head l₂ b
        rw [show dedupConsec (a :: b :: l₂) = a :: dedupConsec (b :: l₂) by
          simp [dedupConsec, hab], ht, List.getLast?_cons_cons, ← ht, ih,
          List.getLast?_cons_cons]

theorem dedupConsec_mem (l : List ℚ) (x : ℚ) (hx : x ∈ dedupConsec l) : x ∈ l := by
  induction l with
  | nil => simp [dedupConsec] at hx
  | cons a l ih =>
    cases l with
    | nil => simp only [dedupConsec] at hx; exact hx
    | cons b l₂ =>
      by_cases hab : a = b
      · rw [show dedupConsec (a :: b :: l₂) = dedupConsec (b :: l₂) by
          simp [dedupConsec, hab]] at hx
        exact List.mem_cons_of_mem a (ih hx)
      · rw [show dedupConsec (a :: b :: l₂) = a :: dedupConsec (b :: l₂) by
          simp [dedupConsec, hab]] at hx
        rcases List.mem_cons.mp hx with h | h
        · exact h ▸ List.mem_cons_self a (b :: l₂)
        · exact List.mem_cons_of_mem a (ih h)

theorem sorted_le_getLast (l : List ℚ) (h : List.Pairwise (· ≤ ·) l) (x y : ℚ)
    (hx : x ∈ l) (hy : l.getLast? = some y) : x ≤ y := by
  induction l with
  | nil => simp at hx
  | cons a t ih =>
    cases t with
    | nil =>
      simp only [List.getLast?_singleton, Option.some.injEq] at hy
      simp only [List.mem_singleton] at hx
      exact le_of_eq (hx.trans hy)
    | cons b t₂ =>
      rw [List.getLast?_cons_cons] at hy
      have hpw := List.pairwise_cons.mp h
      rcases List.mem_cons.mp hx with rfl | hmem
      · have hyin : y ∈ b :: t₂ := List.mem_of_mem_getLast? hy
        exact hpw.1 y hyin
      · exact ih hpw.2 hmem hy

theorem countLE_mono (mafs : List ℚ) (t₁ t₂ : ℚ) (h : t₁ ≤ t₂) :
    countLE mafs t₁ ≤ countLE mafs t₂ := by
  refine List.Sublist.length_le (List.monotone_filter_right mafs ?_)
  intro a ha
  simp only [decide_eq_true_eq] at ha ⊢
  exact le_trans ha h

theorem countLE_all (mafs : List ℚ) (t : ℚ) (h : ∀ x ∈ mafs, x ≤ t) :
    countLE mafs t = mafs.length := by
  unfold countLE
  rw [List.filter_length_eq_length]
  intro a ha
  simpa using h a ha

theorem sum_eq_two_mul_length (row : List Nat) (h : ∀ g ∈ row, g = 2) :
    row.sum = 2 * row.length := by
  induction row with
  | nil => rfl
  | cons a t ih =>
    have ha : a = 2 := h a (List.mem_cons_self a t)
    have ht : t.sum = 2 * t.length := ih fun g hg => h g (List.mem_cons_of_mem a hg)
    simp [ha, ht, Nat.mul_succ, Nat.mul_add]
    ring

theorem decNat_encNat (n : Nat) : decNat (encNat n) = some n := by
  simp [decNat, encNat, Rat.den_natCast, Rat.num_natCast]

theorem mapOption_map_enc {α : Type} (f : α → Json) (g : Json → Option α)
    (h : ∀ a, g (f a) = some a) (l : List α) : mapOption g (l.map f) = some l := by
  induction l with
  | nil => rfl
  | cons a t ih => simp [mapOption, h, ih]

theorem decRow_encRow (r : List Nat) : decRow (encRow r) = some r := by
  simp [decRow, encRow, mapOption_map_enc encNat decNat decNat_encNat]

theorem decMatrix_encMatrix (m : List (List Nat)) : decMatrix (encMatrix m) = some m := by
  simp [decMatrix, encMatrix, mapOption_map_enc encRow decRow decRow_encRow]

theorem decMarker_encMarker (m : MarkerInfo) : decMarker (encMarker m) = some m := by
  simp [decMarker, encMarker, decNat_encNat]

theorem decSnps_encSnps (s : List MarkerInfo) : decSnps (encSnps s) = some s := by
  simp [decSnps, encSnps, mapOption_map_enc encMarker decMarker decMarker_encMarker]

theorem decMafs_encMafs (m : List ℚ) : decMafs (encMafs m) = some m := by
  simp only [decMafs, encMafs]
  exact mapOption_map_enc Json.num decQ (fun q => rfl) m

theorem decCumEntry_encCumEntry (e : ℚ × Nat) : decCumEntry (encCumEntry e) = some e := by
  simp [decCumEntry, encCumEntry, decNat_encNat]

theorem decCum_encCum (c : List (ℚ × Nat)) : decCum (encCum c) = some c := by
  simp [decCum, encCum, mapOption_map_enc encCumEntry decCumEntry decCumEntry_encCumEntry]

/-- A concrete marker record used to instantiate witnesses. -/
def mkMarker (r : String) : MarkerInfo := ⟨r, 1, 100, "A", "C"⟩

/-! ## Claims -/

/-- C1: merging two corpora with axis SNPS and equal individual counts yields the
row-wise concatenation of the genotype matrices (first the rows of A, then the
rows of B) with the marker lists concatenated in the same order; corpora with
different individual counts are rejected. -/
theorem spec_C1 (A B : Corpus) (N₁ N₂ : Nat)
    (hA : A.genotype ≠ []) (hB : B.genotype ≠ [])
    (hAr : ∀ r ∈ A.genotype, r.length = N₁) (hBr : ∀ r ∈ B.genotype, r.length = N₂) :
    (N₁ = N₂ →
      merge_corpora [A, B] .SNPS = .ok ⟨A.genotype ++ B.genotype, A.snps ++ B.snps⟩ ∧
      (A.genotype ++ B.genotype).length = A.genotype.length + B.genotype.length ∧
      (∀ i, i < A.genotype.length → (A.genotype ++ B.genotype)[i]? = A.genotype[i]?) ∧
      (∀ i, (A.genotype ++ B.genotype)[A.genotype.length + i]? = B.genotype[i]?)) ∧
    (N₁ ≠ N₂ → ∃ e, merge_corpora [A, B] .SNPS = .error e) := by
  have hnA : numInds A = N₁ := numInds_eq A N₁ hA hAr
  have hnB : numInds B = N₂ := numInds_eq B N₂ hB hBr
  constructor
  · intro hN
    subst hN
    have hval : validate [A, B] .SNPS = .ok () := by
      simp [validate, hnA, hnB]
    refine ⟨?_, ?_, ?_, ?_⟩
    · simp [merge_corpora, hval]
    · simp
    · intro i hi
      rw [List.getElem?_append, if_pos hi]
    · intro i
      rw [List.getElem?_append_right (Nat.le_add_right _ _)]
      simp
  · intro hN
    have hfalse : (numInds B == numInds A) = false := by
      rw [hnA, hnB]
      exact beq_eq_false_iff_ne.mpr (Ne.symm hN)
    have hval : validate [A, B] .SNPS =
        .error (.indCountMismatch ([B].findIdx (fun c => numInds c != numInds A) + 1)) := by
      simp [validate, hfalse]
    refine ⟨.indCountMismatch ([B].findIdx (fun c => numInds c != numInds A) + 1), ?_⟩
    simp [merge_corpora, hval]

/-- Witness for C1 at a concrete pair of corpora. -/
theorem spec_C1_witness :
    merge_corpora [⟨[[0, 1]], [mkMarker "rs1"]⟩, ⟨[[1, 2]], [mkMarker "rs2"]⟩] .SNPS =
      .ok ⟨[[0, 1], [1, 2]], [mkMarker "rs1", mkMarker "rs2"]⟩ :=
  ((spec_C1 ⟨[[0, 1]], [mkMarker "rs1"]⟩ ⟨[[1, 2]], [mkMarker "rs2"]⟩ 2 2
      (by decide) (by decide) (by decide) (by decide)).1 rfl).1

/-- C2: merging two corpora with axis INDS and identical marker lists yields the
column-wise concatenation (each merged row is A's row followed by B's row, so
columns 0..N1-1 come from A and columns N1.. come from B), keeps the shared
marker list unchanged, and rejects corpora whose marker lists differ. -/
theorem spec_C2 (A B : Corpus) (hlen : A.genotype.length = B.genotype.length) :
    (A.snps = B.snps →
      merge_corpora [A, B] .INDS =
        .ok ⟨List.zipWith (· ++ ·) A.genotype B.genotype, A.snps⟩ ∧
      (List.zipWith (· ++ ·) A.genotype B.genotype).length = A.genotype.length ∧
      (∀ (i : Nat) (ra rb : List Nat), A.genotype[i]? = some ra → B.genotype[i]? = some rb →
        (List.zipWith (· ++ ·) A.genotype B.genotype)[i]? = some (ra ++ rb) ∧
        (∀ j, j < ra.length → (ra ++ rb)[j]? = ra[j]?) ∧
        (∀ j, (ra ++ rb)[ra.length + j]? = rb[j]?))) ∧
    (A.snps ≠ B.snps → ∃ e, merge_corpora [A, B] .INDS = .error e) := by
  constructor
  · intro hsnps
    have hval : validate [A, B] .INDS = .ok () := by simp [validate, hsnps]
    refine ⟨?_, ?_, ?_⟩
    · simp [merge_corpora, hval, hcat]
    · rw [List.length_zipWith, hlen]
      exact min_self _
    · intro i ra rb hra hrb
      refine ⟨?_, ?_, ?_⟩
      · simp [List.getElem?_zipWith, hra, hrb]
      · intro j hj
        rw [List.getElem?_append, if_pos hj]
      · intro j
        rw [List.getElem?_append_right (Nat.le_add_right _ _)]
        simp
  · intro hsnps
    have hfalse : (B.snps == A.snps) = false := beq_eq_false_iff_ne.mpr (Ne.symm hsnps)
    have hval : validate [A, B] .INDS =
        .error (.markerMismatch ([B].findIdx (fun c => c.snps != A.snps) + 1)) := by
      simp [validate, hfalse]
    refine ⟨.markerMismatch ([B].findIdx (fun c => c.snps != A.snps) + 1), ?_⟩
    simp [merge_corpora, hval]

/-- Witness for C2 at a concrete pair of corpora. -/
theorem spec_C2_witness :
    merge_corpora [⟨[[0], [1]], [mkMarker "rs1", mkMarker "rs2"]⟩,
                   ⟨[[2], [2]], [mkMarker "rs1", mkMarker "rs2"]⟩] .INDS =
      .ok ⟨[[0, 2], [1, 2]], [mkMarker "rs1", mkMarker "rs2"]⟩ :=
  ((spec_C2 ⟨[[0], [1]], [mkMarker "rs1", mkMarker "rs2"]⟩
      ⟨[[2], [2]], [mkMarker "rs1", mkMarker "rs2"]⟩ rfl).1 rfl).1

/-- C6: the derived population label is the single distinct input code when there
is exactly one (repetitions allowed), and MIX otherwise; in particular
CEU ↦ CEU, CEU+TSI ↦ MIX, MIX ↦ MIX. -/
theorem spec_C6 (pops : List String) (c : String) :
    (pops ≠ [] → (∀ x ∈ pops, x = c) → derive_label pops = c) ∧
    ((∃ a ∈ pops, ∃ b ∈ pops, a ≠ b) → derive_label pops = "MIX") ∧
    derive_label ["CEU"] = "CEU" ∧
    derive_label ["CEU", "TSI"] = "MIX" ∧
    derive_label ["MIX"] = "MIX" := by
  refine ⟨?_, ?_, by decide, by decide, by decide⟩
  · intro hne hall
    cases pops with
    | nil => exact absurd rfl hne
    | cons p rest =>
      have hp : p = c := hall p (List.mem_cons_self p rest)
      have htrue : rest.all (fun q => q == p) = true := by
        rw [List.all_eq_true]
        intro q hq
        have hq' : q = c := hall q (List.mem_cons_of_mem p hq)
        simp [hq', hp]
      show (if rest.all (fun q => q == p) then p else "MIX") = c
      rw [if_pos htrue]
      exact hp
  · rintro ⟨a, ha, b, hb, hab⟩
    cases pops with
    | nil => simp at ha
    | cons p rest =>
      cases h : rest.all (fun q => q == p) with
      | false => simp [derive_label, h]
      | true =>
        exfalso
        have hall : ∀ q ∈ rest, q = p := by
          intro q hq
          simpa using List.all_eq_true.mp h q hq
        have ha' : a = p := by
          rcases List.mem_cons.mp ha with h' | h'
          · exact h'
          · exact hall a h'
        have hb' : b = p := by
          rcases List.mem_cons.mp hb with h' | h'
          · exact h'
          · exact hall b h'
        exact hab (ha'.trans hb'.symm)

/-- Witness for C6 at concrete population-code lists. -/
theorem spec_C6_witness :
    derive_label ["CEU", "CEU"] = "CEU" ∧ derive_label ["CEU", "TSI"] = "MIX" :=
  ⟨(spec_C6 ["CEU", "CEU"] "CEU").1 (by decide) (by decide),
   (spec_C6 ["CEU", "TSI"] "CEU").2.1 ⟨"CEU", by decide, "TSI", by decide, by decide⟩⟩

/-- C3: compute_mafs returns one MAF per marker row equal to the folded
proportion min(f, 1-f) with f = sum/(2N); an all-zeros row gives 0, an
all-twos row gives 0, the row [0,1,2,1] gives 1/2, and every value lies in
[0, 1/2]. -/
theorem spec_C3 (m : List (List Nat)) (_hm : m ≠ [])
    (hrows : ∀ row ∈ m, row ≠ [] ∧ ∀ g ∈ row, g = 0 ∨ g = 1 ∨ g = 2) :
    (compute_mafs m).length = m.length ∧
    (∀ row ∈ m, rowMaf row =
      min ((row.sum : ℚ) / (2 * (row.length : ℚ)))
        (1 - (row.sum : ℚ) / (2 * (row.length : ℚ)))) ∧
    (∀ row ∈ m, (∀ g ∈ row, g = 0) → rowMaf row = 0) ∧
    (∀ row ∈ m, (∀ g ∈ row, g = 2) → rowMaf row = 0) ∧
    rowMaf [0, 1, 2, 1] = 1/2 ∧
    (∀ v ∈ compute_mafs m, 0 ≤ v ∧ v ≤ 1/2) := by
  refine ⟨by simp [compute_mafs], fun row _ => rfl, ?_, ?_, by norm_num [rowMaf], ?_⟩
  · intro row _ hz
    simp [rowMaf, List.sum_eq_zero hz]
  · intro row hrow h2
    have hne : row ≠ [] := (hrows row hrow).1
    have hL : (0 : ℚ) < (row.length : ℚ) := by
      exact_mod_cast List.length_pos.mpr hne
    have hsum := sum_eq_two_mul_length row h2
    have h2L : (2 * (row.length : ℚ)) ≠ 0 := by positivity
    rw [rowMaf, hsum]
    push_cast
    rw [div_self h2L]
    norm_num
  · intro v hv
    obtain ⟨row, hrowm, rfl⟩ := List.mem_map.mp hv
    obtain ⟨hne, hdom⟩ := hrows row hrowm
    have hL : (0 : ℚ) < (row.length : ℚ) := by
      exact_mod_cast List.length_pos.mpr hne
    have hle2 : ∀ g ∈ row, g ≤ 2 := by
      intro g hg
      rcases hdom g hg with h | h | h <;> omega
    have hsum2 : row.sum ≤ 2 * row.length := by
      have := List.sum_le_card_nsmul row 2 hle2
      simpa [smul_eq_mul, Nat.mul_comm] using this
    have hf0 : (0 : ℚ) ≤ (row.sum : ℚ) / (2 * (row.length : ℚ)) := by positivity
    have hf1 : (row.sum : ℚ) / (2 * (row.length : ℚ)) ≤ 1 := by
      rw [div_le_one (by positivity)]
      exact_mod_cast hsum2
    constructor
    · exact le_min hf0 (by linarith)
    · rcases le_total ((row.sum : ℚ) / (2 * (row.length : ℚ))) (1/2) with h | h
      · exact le_trans (min_le_left _ _) h
      · exact le_trans (min_le_right _ _) (by linarith)

/-- Witness for C3 at the concrete matrix [[0,1,2,1]]. -/
theorem spec_C3_witness : rowMaf [0, 1, 2, 1] = 1/2 :=
  (spec_C3 [[0, 1, 2, 1]] (by decide) (by decide)).2.2.2.2.1

/-- C4: the cumulative MAF distribution has strictly increasing thresholds,
non-decreasing counts, final count equal to the total marker count, each entry
counting the markers with MAF at most its threshold (each threshold being one
of the MAF values); for [0.1, 0.05, 0.1, 0.3] it is [(0.05,1),(0.1,3),(0.3,4)]. -/
theorem spec_C4 (mafs : List ℚ) (hne : mafs ≠ []) :
    List.Pairwise (· < ·) ((build_cumulative mafs).map Prod.fst) ∧
    List.Pairwise (· ≤ ·) ((build_cumulative mafs).map Prod.snd) ∧
    ((build_cumulative mafs).map Prod.snd).getLast? = some mafs.length ∧
    (∀ e ∈ build_cumulative mafs, e.2 = countLE mafs e.1 ∧ e.1 ∈ mafs) ∧
    build_cumulative [1/10, 1/20, 1/10, 3/10] = [(1/20, 1), (1/10, 3), (3/10, 4)] := by
  have hperm : (sortMafs mafs).Perm mafs := List.perm_insertionSort _ _
  have hsorted : List.Pairwise (· ≤ ·) (sortMafs mafs) :=
    List.sorted_insertionSort (· ≤ ·) mafs
  have hpwlt : List.Pairwise (· < ·) (dedupConsec (sortMafs mafs)) :=
    (List.chain'_iff_pairwise).mp
      (dedupConsec_chain _ ((List.chain'_iff_pairwise).mpr hsorted))
  have hfst : (build_cumulative mafs).map Prod.fst = dedupConsec (sortMafs mafs) := by
    simp [build_cumulative, List.map_map, Function.comp_def]
  have hsnd : (build_cumulative mafs).map Prod.snd =
      (dedupConsec (sortMafs mafs)).map (fun t => countLE mafs t) := by
    simp [build_cumulative, List.map_map, Function.comp_def]
  refine ⟨?_, ?_, ?_, ?_, ?_⟩
  · rw [hfst]
    exact hpwlt
  · rw [hsnd]
    exact List.Pairwise.map _ (fun a b hab => countLE_mono mafs a b hab.le) hpwlt
  · have hsne : sortMafs mafs ≠ [] := by
      intro h0
      have := hperm.length_eq
      rw [h0] at this
      exact hne (List.length_eq_zero.mp this.symm)
    obtain ⟨y, hy⟩ := Option.isSome_iff_exists.mp (List.getLast?_isSome.mpr hsne)
    rw [hsnd, List.getLast?_map, dedupConsec_getLast, hy]
    have hley : ∀ x ∈ mafs, x ≤ y := by
      intro x hx
      exact sorted_le_getLast _ hsorted x y (hperm.mem_iff.mpr hx) hy
    simp [countLE_all mafs y hley]
  · intro e he
    simp only [build_cumulative, List.mem_map] at he
    obtain ⟨t, ht, rfl⟩ := he
    exact ⟨rfl, hperm.mem_iff.mp (dedupConsec_mem _ _ ht)⟩
  · norm_num [build_cumulative, sortMafs, List.insertionSort, List.orderedInsert, dedupConsec,
      countLE, List.filter]

/-- Witness for C4 at the concrete MAF list [0.1, 0.05, 0.1, 0.3]. -/
theorem spec_C4_witness :
    build_cumulative [1/10, 1/20, 1/10, 3/10] = [(1/20, 1), (1/10, 3), (3/10, 4)] :=
  (spec_C4 [1/10, 1/20, 1/10, 3/10] (List.cons_ne_nil _ _)).2.2.2.2

/-- C5: a validation failure (dimension mismatch, marker mismatch, or fewer than
two corpora) surfaces as a single IncompatibleCorpusError and makes the whole
pipeline abort with that error, so no output file is produced on any validation
failure path. -/
theorem spec_C5 (corpora : List Corpus) (axis : Axis) (pops : List String) (id : Nat)
    (compress : Bool) :
    (∀ e, validate corpora axis = .error e →
      runPipeline corpora axis pops id compress = .error e) ∧
    (corpora.length < 2 → ∃ e, validate corpora axis = .error e) ∧
    (∀ c₀ rest, corpora = c₀ :: rest → axis = .SNPS →
      (∃ c ∈ rest, numInds c ≠ numInds c₀) → ∃ e, validate corpora axis = .error e) ∧
    (∀ c₀ rest, corpora = c₀ :: rest → axis = .INDS →
      (∃ c ∈ rest, c.snps ≠ c₀.snps) → ∃ e, validate corpora axis = .error e) := by
  refine ⟨?_, ?_, ?_, ?_⟩
  · intro e he
    simp [runPipeline, merge_corpora, he]
  · intro hlen
    cases corpora with
    | nil => exact ⟨.tooFewCorpora 0, by cases axis <;> rfl⟩
    | cons c t =>
      cases t with
      | nil => exact ⟨.tooFewCorpora 1, by cases axis <;> rfl⟩
      | cons c₂ t₂ =>
        simp only [List.length_cons] at hlen
        omega
  · rintro c₀ rest rfl rfl ⟨c, hcmem, hcne⟩
    cases rest with
    | nil => simp at hcmem
    | cons r rest₂ =>
      have hfalse : ((r :: rest₂).all (fun c => numInds c == numInds c₀)) = false := by
        rw [List.all_eq_false]
        exact ⟨c, hcmem, by simp [hcne]⟩
      refine ⟨.indCountMismatch
        ((r :: rest₂).findIdx (fun c => numInds c != numInds c₀) + 1), ?_⟩
      simp [validate, hfalse]
  · rintro c₀ rest rfl rfl ⟨c, hcmem, hcne⟩
    cases rest with
    | nil => simp at hcmem
    | cons r rest₂ =>
      have hfalse : ((r :: rest₂).all (fun c => c.snps == c₀.snps)) = false := by
        rw [List.all_eq_false]
        exact ⟨c, hcmem, by simp [hcne]⟩
      refine ⟨.markerMismatch
        ((r :: rest₂).findIdx (fun c => c.snps != c₀.snps) + 1), ?_⟩
      simp [validate, hfalse]

/-- Witness for C5: a single-corpus input makes validation and the whole
pipeline fail with the same error, producing no output. -/
theorem spec_C5_witness :
    validate [(⟨[[0]], [mkMarker "rs1"]⟩ : Corpus)] .SNPS = .error (.tooFewCorpora 1) ∧
    runPipeline [(⟨[[0]], [mkMarker "rs1"]⟩ : Corpus)] .SNPS ["CEU"] 0 false =
      .error (.tooFewCorpora 1) :=
  ⟨rfl, (spec_C5 [⟨[[0]], [mkMarker "rs1"]⟩] .SNPS ["CEU"] 0 false).1
    (.tooFewCorpora 1) rfl⟩

/-- C7: saving the four artifacts of a merged corpus and loading them back is
the identity on the corpus data (genotype matrix, marker list, MAF list,
cumulative distribution). -/
theorem spec_C7 (c : Corpus) (mafs : List ℚ) (cum : List (ℚ × Nat)) :
    loadCorpus (dump_corpus c mafs cum) = some (c, mafs, cum) := by
  simp [loadCorpus, dump_corpus, decMatrix_encMatrix, decSnps_encSnps, decMafs_encMafs,
    decCum_encCum]

/-- C8: the pipeline is deterministic — two runs on the same inputs yield the
same artifacts — and the merge preserves input-list order with no reordering,
deduplication, or sorting: for axis SNPS the output marker list is the
concatenation of the inputs' lists, each input's marker list survives as a
contiguous segment, and marker multiplicities add up; for axis INDS the first
corpus's marker list is kept unchanged. -/
theorem spec_C8 (corpora : List Corpus) (axis : Axis) (pops : List String) (id : Nat)
    (compress : Bool) (r₁ r₂ : Except IncompatibleCorpusError (List String × List Json))
    (h₁ : runPipeline corpora axis pops id compress = r₁)
    (h₂ : runPipeline corpora axis pops id compress = r₂) :
    r₁ = r₂ ∧
    (∀ out, merge_corpora corpora .SNPS = .ok out →
      out.snps = (corpora.map Corpus.snps).flatten ∧
      (∀ c ∈ corpora, c.snps <:+: out.snps) ∧
      (∀ mk : MarkerInfo, out.snps.count mk = (corpora.map (fun c => c.snps.count mk)).sum)) ∧
    (∀ c₀ rest out, corpora = c₀ :: rest → merge_corpora corpora .INDS = .ok out →
      out.snps = c₀.snps) := by
  refine ⟨h₁ ▸ h₂ ▸ rfl, ?_, ?_⟩
  · intro out hok
    have hsnps : out.snps = (corpora.map Corpus.snps).flatten := by
      cases corpora with
      | nil => simp [merge_corpora, validate] at hok
      | cons c₀ rest =>
        cases hv : validate (c₀ :: rest) .SNPS with
        | error e => simp [merge_corpora, hv] at hok
        | ok u =>
          simp only [merge_corpora, hv] at hok
          simp at hok
          rw [← hok]
          simp
    refine ⟨hsnps, ?_, ?_⟩
    · intro c hc
      rw [hsnps]
      exact List.infix_of_mem_flatten (List.mem_map_of_mem Corpus.snps hc)
    · intro mk
      rw [hsnps, List.count_flatten, List.map_map]
      simp [Function.comp_def]
  · rintro c₀ rest out rfl hok
    cases hv : validate (c₀ :: rest) .INDS with
    | error e => simp [merge_corpora, hv] at hok
    | ok u =>
      simp only [merge_corpora, hv] at hok
      simp at hok
      rw [← hok]

/-- Witness for C8: two runs of the pipeline on a fixed concrete input agree. -/
theorem spec_C8_witness :
    runPipeline [(⟨[[0]], [mkMarker "rs1"]⟩ : Corpus), ⟨[[1]], [mkMarker "rs2"]⟩]
        .SNPS ["CEU"] 1 false =
      runPipeline [(⟨[[0]], [mkMarker "rs1"]⟩ : Corpus), ⟨[[1]], [mkMarker "rs2"]⟩]
        .SNPS ["CEU"] 1 false :=
  (spec_C8 [⟨[[0]], [mkMarker "rs1"]⟩, ⟨[[1]], [mkMarker "rs2"]⟩]
    .SNPS ["CEU"] 1 false _ _ rfl rfl).1

/-- C9: output files live under ./corpora/ with names ID_POP_genotype.SUFFIX,
ID_POP_snps.SUFFIX, ID_POP_mafs.SUFFIX, ID_POP_cum_mafs.SUFFIX and
ID_POP_cum_mafs.pdf, where SUFFIX is json.bz2 exactly when --compress is given
and json otherwise; the printed summary reports exactly these paths together
with the marker count, and a successful pipeline run writes exactly these
paths. -/
theorem spec_C9 (id : Nat) (pop : String) (compress : Bool) (n : Nat) :
    (suffixOf compress = "json.bz2" ↔ compress = true) ∧
    (suffixOf compress = "json" ↔ compress = false) ∧
    (∀ g s mf cm pdf, artifactPaths id pop compress = [g, s, mf, cm, pdf] →
      summaryLines id pop compress n =
        [ "Number of SNPs:\t\t\t" ++ toString n
        , "Genotype data:\t\t\t" ++ g
        , "SNPs:\t\t\t\t" ++ s
        , "MAFs:\t\t\t\t" ++ mf
        , "Cumulative MAF distr.:\t\t" ++ cm
        , "Plot of cumulative MAF distr.:\t" ++ pdf ]) ∧
    (∀ corpora axis pops files, runPipeline corpora axis pops id compress = .ok files →
      files.1 = artifactPaths id (derive_label pops) compress) := by
  refine ⟨?_, ?_, ?_, ?_⟩
  · cases compress <;> simp [suffixOf]
  · cases compress <;> simp [suffixOf]
  · intro g s mf cm pdf hp
    simp only [artifactPaths, List.cons.injEq, and_true] at hp
    obtain ⟨hg, hs, hmf, hcm, hpdf⟩ := hp
    subst hg hs hmf hcm hpdf
    have e₁ : ("Genotype data:\t\t\t" : String) ++ "./corpora/" =
        "Genotype data:\t\t\t./corpora/" := rfl
    have e₂ : ("SNPs:\t\t\t\t" : String) ++ "./corpora/" =
        "SNPs:\t\t\t\t./corpora/" := rfl
    have e₃ : ("MAFs:\t\t\t\t" : String) ++ "./corpora/" =
        "MAFs:\t\t\t\t./corpora/" := rfl
    have e₄ : ("Cumulative MAF distr.:\t\t" : String) ++ "./corpora/" =
        "Cumulative MAF distr.:\t\t./corpora/" := rfl
    have e₅ : ("Plot of cumulative MAF distr.:\t" : String) ++ "./corpora/" =
        "Plot of cumulative MAF distr.:\t./corpora/" := rfl
    simp only [summaryLines, ← String.append_assoc, e₁, e₂, e₃, e₄, e₅]
  · intro corpora axis pops files hok
    cases hm : merge_corpora corpora axis with
    | error e => simp [runPipeline, hm] at hok
    | ok merged =>
      simp only [runPipeline, hm] at hok
      simp at hok
      rw [← hok]

/-- Witness for C9: concrete suffix values and a concrete summary decomposition. -/
theorem spec_C9_witness :
    suffixOf true = "json.bz2" ∧ suffixOf false = "json" ∧
    summaryLines 7 "MIX" true 3 =
      [ "Number of SNPs:\t\t\t" ++ toString 3
      , "Genotype data:\t\t\t" ++ "./corpora/7_MIX_genotype.json.bz2"
      , "SNPs:\t\t\t\t" ++ "./corpora/7_MIX_snps.json.bz2"
      , "MAFs:\t\t\t\t" ++ "./corpora/7_MIX_mafs.json.bz2"
      , "Cumulative MAF distr.:\t\t" ++ "./corpora/7_MIX_cum_mafs.json.bz2"
      , "Plot of cumulative MAF distr.:\t" ++ "./corpora/7_MIX_cum_mafs.pdf" ] :=
  ⟨(spec_C9 7 "MIX" true 3).1.mpr rfl, (spec_C9 7 "MIX" false 3).2.1.mpr rfl,
   (spec_C9 7 "MIX" true 3).2.2.1 "./corpora/7_MIX_genotype.json.bz2"
     "./corpora/7_MIX_snps.json.bz2" "./corpora/7_MIX_mafs.json.bz2"
     "./corpora/7_MIX_cum_mafs.json.bz2" "./corpora/7_MIX_cum_mafs.pdf" rfl⟩

/-- C10: argument validation of the source-corpus id list checks only the list
length (at least 2), not sign, so a list containing negative ids passes parsing
(and reaches corpus loading), while a negative target id is rejected by the
separate non-negativity check on --corpus-id. -/
theorem spec_C10 (ids : List Int) (cid : Int) (h2 : 2 ≤ ids.length)
    (_hneg : ∃ x ∈ ids, x < 0) (hcid : 0 ≤ cid) :
    check_length "--corpus-ids" ids = .ok ids ∧
    parseMergeArgs ids cid = .ok (ids, cid) ∧
    (∀ x : Int, x < 0 → ∃ msg, check_non_negative "--corpus-id" x = .error msg) := by
  have hok : check_length "--corpus-ids" ids = .ok ids := by
    simp only [check_length, if_neg (not_lt.mpr h2)]
  refine ⟨hok, ?_, ?_⟩
  · simp [parseMergeArgs, hok, check_non_negative, not_lt.mpr hcid]
  · intro x hx
    refine ⟨"Invalid argument passed to " ++ "--corpus-id" ++
      ": non-negative integer required.", ?_⟩
    simp [check_non_negative, hx]

/-- Witness for C10: the list [-1, 5] with a negative source id passes the
length-only check unchanged. -/
theorem spec_C10_witness :
    check_length "--corpus-ids" [-1, 5] = .ok [-1, 5] :=
  (spec_C10 [-1, 5] 0 (by decide) ⟨-1, by decide, by decide⟩ (by decide)).1

end EpiGen
